import Mathlib

/-!
# dglog: the log-line formatter of `src/dglog.go`

A shallow embedding of `dglog.go` (package `main`) and of the library
functions it calls.

* A Go `string` is the list of its bytes (`GoString`); `len`, indexing and
  slicing work on bytes, exactly as in Go.
* The outcome of a call is `Outcome`: it returns (`ok`), it panics at run
  time (`panicked`, e.g. slice bounds out of range), or the process exits
  through `log.Fatal` (`fatal`).
* What the operating system, the clock and the third-party colour package
  supply is collected in `Env`.
* Paths follow the Unix implementation of `path/filepath` (separator `/`,
  no volume names).
-/

namespace Dglog

/-! ## Strings, outcomes -/

/-- A Go string: its sequence of bytes. -/
abbrev GoString := List Nat

/-- The bytes (UTF-8) of a string literal. -/
def str (s : String) : GoString :=
  (s.toList.flatMap String.utf8EncodeChar).map UInt8.toNat

/-- How a call ends. -/
inductive Outcome (α : Type) where
  /-- The call returns a value. -/
  | ok (a : α)
  /-- A run-time panic, here always `slice bounds out of range`. -/
  | panicked
  /-- The call ran `log.Fatal`: the process exits with status 1. -/
  | fatal
  deriving DecidableEq, Repr

/-- Sequencing of calls: a panic or a fatal exit ends the computation. -/
def Outcome.bind {α β : Type} (x : Outcome α) (f : α → Outcome β) : Outcome β :=
  match x with
  | .ok a => f a
  | .panicked => .panicked
  | .fatal => .fatal

/-- The slice expression `s[a:]`: panics when `a > len(s)`. -/
def sliceFrom (s : GoString) (a : Nat) : Outcome GoString :=
  if a ≤ s.length then .ok (s.drop a) else .panicked

/-- The slice expression `s[:b]`: panics when `b > len(s)`. -/
def sliceTo (s : GoString) (b : Nat) : Outcome GoString :=
  if b ≤ s.length then .ok (s.take b) else .panicked

/-! ## Package `strings` -/

/-- Go `strings.Join(elems, sep)`. -/
def strings.Join (elems : List GoString) (sep : GoString) : GoString :=
  match elems with
  | [] => []
  | [e] => e
  | e :: rest => e ++ sep ++ strings.Join rest sep

/-- Does `sub` start `s`? -/
def hasPrefixAt (sub s : GoString) : Bool :=
  match sub, s with
  | [], _ => true
  | _ :: _, [] => false
  | a :: sub', b :: s' => a == b && hasPrefixAt sub' s'

/-- Go `strings.Contains(s, substr)`: `substr` occurs somewhere in `s`. -/
def strings.Contains (s substr : GoString) : Bool :=
  match s with
  | [] => hasPrefixAt substr []
  | c :: rest => hasPrefixAt substr (c :: rest) || strings.Contains rest substr

/-- Upper-case form of one ASCII byte: `c -= 'a' - 'A'` for `'a' <= c <= 'z'`. -/
def upperByte (c : Nat) : Nat :=
  if 97 ≤ c ∧ c ≤ 122 then c - 32 else c

/-- Go `strings.ToUpper` on its ASCII path (byte by byte); the level names it
is applied to are ASCII. Bytes `>= 0x80` are left as they are. -/
def strings.ToUpper (s : GoString) : GoString :=
  s.map upperByte

/-! ## Package `unicode/utf8` -/

/-- Width in bytes of the encoding that starts with byte `c` and is followed
by `rest`, as `utf8.RuneCountInString` advances: the `first` table gives the
expected size and the accepted range of the second byte; a short or
ill-formed sequence advances by one byte. -/
def runeSize (c : Nat) (rest : GoString) : Nat :=
  if c < 0x80 then 1                                  -- ASCII
  else if c < 0xC2 ∨ 0xF4 < c then 1                  -- first[c] == xx
  else
    let size := if c < 0xE0 then 2 else if c < 0xF0 then 3 else 4
    if rest.length + 1 < size then 1                  -- i+size > ns
    else
      let lo := if c = 0xE0 then 0xA0 else if c = 0xF0 then 0x90 else 0x80
      let hi := if c = 0xED then 0x9F else if c = 0xF4 then 0x8F else 0xBF
      let c1 := rest.getD 0 0
      let c2 := rest.getD 1 0
      let c3 := rest.getD 2 0
      if c1 < lo ∨ hi < c1 then 1
      else if size = 2 then 2
      else if c2 < 0x80 ∨ 0xBF < c2 then 1
      else if size = 3 then 3
      else if c3 < 0x80 ∨ 0xBF < c3 then 1
      else 4

/-- The loop of `utf8.RuneCountInString` on the unread rest of the string;
every turn reads at least one byte, so `fuel = len` turns are enough. -/
def runeCountLoop : Nat → GoString → Nat
  | 0, _ => 0
  | _ + 1, [] => 0
  | fuel + 1, c :: rest => 1 + runeCountLoop fuel (rest.drop (runeSize c rest - 1))

/-- Go `utf8.RuneCountInString(s)`: the number of runes (characters) in `s`. -/
def utf8.RuneCountInString (s : GoString) : Nat :=
  runeCountLoop s.length s

/-! ## Packages `path/filepath` and `path` (Unix) -/

/-- Go `os.IsPathSeparator` on Unix: the byte `/`. -/
def isPathSeparator (c : Nat) : Bool := c == 47

/-- The inner loop of the `..` case of `Clean`, after `out.w--`:
`for out.w > dotdot && !os.IsPathSeparator(out.index(out.w)) { out.w-- }`;
the argument and the result are `out.w`. -/
def cleanBacktrack (buf : GoString) (dotdot : Nat) : Nat → Nat
  | 0 => 0
  | w + 1 =>
    if w + 1 > dotdot && !isPathSeparator (buf.getD (w + 1) 0) then
      cleanBacktrack buf dotdot w
    else w + 1

/-- The main loop `for r < n { ... }` of `Clean`: `r` is the index of the
next byte to read, `out` the bytes written so far (`out.w` is its length),
`dotdot` the index in `out` where `..` must stop. Every turn advances `r`,
so `fuel = n` turns are enough. -/
def cleanLoop (p : GoString) (rooted : Bool) : Nat → Nat → GoString → Nat → GoString
  | 0, _, out, _ => out
  | fuel + 1, r, out, dotdot =>
    if r < p.length then
      if isPathSeparator (p.getD r 0) then
        -- empty path element
        cleanLoop p rooted fuel (r + 1) out dotdot
      else if p.getD r 0 == 46 && (r + 1 == p.length || isPathSeparator (p.getD (r + 1) 0)) then
        -- . element
        cleanLoop p rooted fuel (r + 1) out dotdot
      else if p.getD r 0 == 46 && p.getD (r + 1) 0 == 46
          && (r + 2 == p.length || isPathSeparator (p.getD (r + 2) 0)) then
        -- .. element: remove to last separator
        if out.length > dotdot then
          cleanLoop p rooted fuel (r + 2)
            (out.take (cleanBacktrack out dotdot (out.length - 1))) dotdot
        else if !rooted then
          let out1 := if out.length > 0 then out ++ [47] else out
          let out2 := out1 ++ [46, 46]
          cleanLoop p rooted fuel (r + 2) out2 out2.length
        else
          cleanLoop p rooted fuel (r + 2) out dotdot
      else
        -- real path element: add slash if needed, copy element
        let out1 :=
          if (rooted && out.length != 1) || (!rooted && out.length != 0) then out ++ [47]
          else out
        let elem := (p.drop r).takeWhile (fun c => !isPathSeparator c)
        cleanLoop p rooted fuel (r + elem.length) (out1 ++ elem) dotdot
    else out

/-- Go `filepath.Clean` (and `path.Clean`): the shortest equivalent path. -/
def filepath.Clean (p : GoString) : GoString :=
  if p.length == 0 then [46]
  else
    let rooted := isPathSeparator (p.getD 0 0)
    let out :=
      if rooted then cleanLoop p rooted p.length 1 [47] 1
      else cleanLoop p rooted p.length 0 [] 0
    -- Turn empty string into "."
    if out.length == 0 then [46] else out

/-- The scan `i := len(path) - 1; for i >= 0 && !os.IsPathSeparator(path[i]) { i-- }`;
the argument and the result are `i + 1`. -/
def lastSeparatorEnd (p : GoString) : Nat → Nat
  | 0 => 0
  | k + 1 => if !isPathSeparator (p.getD k 0) then lastSeparatorEnd p k else k + 1

/-- The scan that strips trailing slashes in `Base`; the argument and the
result are the remaining length. -/
def trimTrailingSeparators (p : GoString) : Nat → Nat
  | 0 => 0
  | k + 1 => if isPathSeparator (p.getD k 0) then trimTrailingSeparators p k else k + 1

/-- Go `filepath.Dir`: all but the last element of the path, cleaned. -/
def filepath.Dir (p : GoString) : GoString :=
  filepath.Clean (p.take (lastSeparatorEnd p p.length))

/-- Go `path.Dir`: `Clean` of the part up to and including the last slash. -/
def path.Dir (p : GoString) : GoString :=
  filepath.Clean (p.take (lastSeparatorEnd p p.length))

/-- Go `filepath.Base`: the last element of the path. -/
def filepath.Base (p : GoString) : GoString :=
  if p.length == 0 then [46]
  else
    -- Strip trailing slashes.
    let p1 := p.take (trimTrailingSeparators p p.length)
    -- Find the last element
    let j := lastSeparatorEnd p1 p1.length
    let p2 := if j > 0 then p1.drop j else p1
    -- If empty now, it had only slashes.
    if p2.length == 0 then [47] else p2

/-- Go `filepath.Join`: the elements from the first non-empty one on,
joined with the separator and cleaned; empty when all are empty. -/
def filepath.Join (elem : List GoString) : GoString :=
  match elem with
  | [] => []
  | e :: rest =>
    if e.length != 0 then filepath.Clean (strings.Join (e :: rest) [47])
    else filepath.Join rest

/-! ## Package `fmt` -/

/-- Decimal digits of a natural number, most significant first. -/
def decimalDigits : Nat → Nat → GoString
  | 0, _ => []
  | fuel + 1, n =>
    if n < 10 then [48 + n] else decimalDigits fuel (n / 10) ++ [48 + n % 10]

/-- The verb `%d` on an `int`. -/
def fmt.formatInt (v : Int) : GoString :=
  if v < 0 then 45 :: decimalDigits (v.natAbs + 1) v.natAbs
  else decimalDigits (v.natAbs + 1) v.natAbs

/-- The verb `%-Ns` (`fmt.padString` with the minus flag): the string, then
`N - RuneCountInString(s)` spaces when that is positive. -/
def fmt.padRight (wid : Nat) (s : GoString) : GoString :=
  s ++ List.replicate (wid - utf8.RuneCountInString s) 32

/-! ## The logging framework (logrus) and the environment -/

/-- A logrus level, a `uint32`. -/
abbrev Level := Nat

/-- Modelled from the spec: the logrus level constants are not under src/.
The six levels of the data model, numbered as in the library, which also has
a seventh level, trace (6). -/
abbrev PanicLevel : Level := 0
/-- Modelled from the spec: logrus level constant (see `PanicLevel`). -/
abbrev FatalLevel : Level := 1
/-- Modelled from the spec: logrus level constant (see `PanicLevel`). -/
abbrev ErrorLevel : Level := 2
/-- Modelled from the spec: logrus level constant (see `PanicLevel`). -/
abbrev WarnLevel : Level := 3
/-- Modelled from the spec: logrus level constant (see `PanicLevel`). -/
abbrev InfoLevel : Level := 4
/-- Modelled from the spec: logrus level constant (see `PanicLevel`). -/
abbrev DebugLevel : Level := 5

/-- Modelled from the spec: the table of level names behind logrus
`Level.String()` is not under src/. The names of the six levels of the data
model (debug, info, warn, error, fatal, panic; the library spells warn
`warning`), `trace` for the library's seventh level and `unknown` for every
other value. -/
def Level.String (level : Level) : GoString :=
  match level with
  | 0 => str "panic"
  | 1 => str "fatal"
  | 2 => str "error"
  | 3 => str "warning"
  | 4 => str "info"
  | 5 => str "debug"
  | 6 => str "trace"
  | _ => str "unknown"

/-- The caller record `runtime.Frame`, as far as it is read: `File`, `Line`. -/
structure Frame where
  File : GoString
  Line : Int
  deriving DecidableEq, Repr

/-- The log event `logrus.Entry`, as far as it is read. `Caller` is `none`
for the nil pointer. -/
structure Entry where
  Level : Level
  Message : GoString
  Caller : Option Frame
  deriving DecidableEq, Repr

/-- What the formatter takes from outside the package. -/
structure Env where
  /-- The result of `time.Now().Local().Format("20060102.15:04:05")`. -/
  Now : GoString
  /-- The third-party `ansi.ColorFunc`: style name to colour transform. -/
  ColorFunc : GoString → GoString → GoString
  /-- The result of `os.Executable()`; `none` when it reports an error. -/
  Executable : Option GoString
  /-- The call `filepath.EvalSymlinks`; `none` when it reports an error, in
  which case the string it returns is empty. -/
  EvalSymlinks : GoString → Option GoString
  /-- The result of `os.TempDir()`. -/
  TempDir : GoString
  /-- The file name reported by `runtime.Caller(0)` inside
  `getCurrentAbPathByCaller`; `none` when `ok` is false. -/
  CallerFile : Option GoString

/-! ## `dglog.go` -/

/-- The type `ColorScheme`: one style name per slot. -/
structure ColorScheme where
  InfoLevelStyle : GoString
  WarnLevelStyle : GoString
  ErrorLevelStyle : GoString
  FatalLevelStyle : GoString
  PanicLevelStyle : GoString
  DebugLevelStyle : GoString
  PrefixStyle : GoString
  TimestampStyle : GoString
  deriving DecidableEq, Repr

/-- The type `compiledColorScheme`: one colour transform per slot. -/
structure compiledColorScheme where
  InfoLevelColor : GoString → GoString
  WarnLevelColor : GoString → GoString
  ErrorLevelColor : GoString → GoString
  FatalLevelColor : GoString → GoString
  PanicLevelColor : GoString → GoString
  DebugLevelColor : GoString → GoString
  PrefixColor : GoString → GoString
  TimestampColor : GoString → GoString

/-- The package variable `defaultColorScheme` (lines 39-48). -/
def defaultColorScheme : ColorScheme where
  InfoLevelStyle := str "green"
  WarnLevelStyle := str "yellow"
  ErrorLevelStyle := str "red"
  FatalLevelStyle := str "red"
  PanicLevelStyle := str "red"
  DebugLevelStyle := str "blue"
  PrefixStyle := str "cyan"
  TimestampStyle := str "black+h"

/-- The function `getCompiledColor` (lines 50-58); `colorFunc` is
`ansi.ColorFunc`. -/
def getCompiledColor (colorFunc : GoString → GoString → GoString)
    (main fallback : GoString) : GoString → GoString :=
  let style := if main.length != 0 then main else fallback
  colorFunc style

/-- The function `compileColorScheme` (lines 60-71). `pkgDefault` is the
value of the package variable `defaultColorScheme`, which the function
reads. -/
def compileColorScheme (colorFunc : GoString → GoString → GoString)
    (pkgDefault s : ColorScheme) : compiledColorScheme where
  InfoLevelColor := getCompiledColor colorFunc s.InfoLevelStyle pkgDefault.InfoLevelStyle
  WarnLevelColor := getCompiledColor colorFunc s.WarnLevelStyle pkgDefault.WarnLevelStyle
  ErrorLevelColor := getCompiledColor colorFunc s.ErrorLevelStyle pkgDefault.ErrorLevelStyle
  FatalLevelColor := getCompiledColor colorFunc s.FatalLevelStyle pkgDefault.FatalLevelStyle
  PanicLevelColor := getCompiledColor colorFunc s.PanicLevelStyle pkgDefault.PanicLevelStyle
  DebugLevelColor := getCompiledColor colorFunc s.DebugLevelStyle pkgDefault.DebugLevelStyle
  PrefixColor := getCompiledColor colorFunc s.PrefixStyle pkgDefault.PrefixStyle
  TimestampColor := getCompiledColor colorFunc s.TimestampStyle pkgDefault.TimestampStyle

/-- The scheme that `getLevel` declares locally (lines 97-106); it shadows
the package variable inside `getLevel` only. -/
def getLevel.defaultColorScheme : ColorScheme where
  InfoLevelStyle := str "white"
  WarnLevelStyle := str "yellow"
  ErrorLevelStyle := str "red"
  FatalLevelStyle := str "red"
  PanicLevelStyle := str "red"
  DebugLevelStyle := str "blue"
  PrefixStyle := str "cyan"
  TimestampStyle := str "black+h"

/-- The `switch entry.Level` of `getLevel` (lines 110-125). -/
def getLevel.levelColor (colorScheme : compiledColorScheme) (level : Level) :
    GoString → GoString :=
  match level with
  | 5 => colorScheme.DebugLevelColor
  | 4 => colorScheme.InfoLevelColor
  | 3 => colorScheme.WarnLevelColor
  | 2 => colorScheme.ErrorLevelColor
  | 1 => colorScheme.FatalLevelColor
  | 0 => colorScheme.PanicLevelColor
  | _ => colorScheme.DebugLevelColor

/-- The text `strings.ToUpper(entry.Level.String())[:1]` that `getLevel`
hands to the colour transform (line 127). -/
def getLevel.tag (level : Level) : Outcome GoString :=
  sliceTo (strings.ToUpper (Level.String level)) 1

/-- The method `LogFormatter.getLevel` (lines 96-130). `pkgDefault` is the
value of the package variable `defaultColorScheme`. -/
def LogFormatter.getLevel (env : Env) (pkgDefault : ColorScheme) (entry : Entry) :
    Outcome GoString :=
  let colorScheme := compileColorScheme env.ColorFunc pkgDefault getLevel.defaultColorScheme
  let levelColor := getLevel.levelColor colorScheme entry.Level
  (getLevel.tag entry.Level).bind fun tag => .ok (levelColor tag)

/-- The method `getCurrentAbPathByExecutable` (lines 143-150): `log.Fatal`
when `os.Executable` fails; the error of `EvalSymlinks` is dropped and its
(then empty) string returned. -/
def LogFormatter.getCurrentAbPathByExecutable (env : Env) : Outcome GoString :=
  match env.Executable with
  | none => .fatal
  | some exePath => .ok ((env.EvalSymlinks (filepath.Dir exePath)).getD [])

/-- The method `getCurrentAbPathByCaller` (lines 153-160). -/
def LogFormatter.getCurrentAbPathByCaller (env : Env) : GoString :=
  match env.CallerFile with
  | some filename => path.Dir filename
  | none => []

/-- The method `getCurrentAbPath` (lines 133-140). -/
def LogFormatter.getCurrentAbPath (env : Env) : Outcome GoString :=
  (LogFormatter.getCurrentAbPathByExecutable env).bind fun dir =>
    let tmpDir := (env.EvalSymlinks env.TempDir).getD []
    if strings.Contains dir tmpDir then .ok (LogFormatter.getCurrentAbPathByCaller env)
    else .ok dir

/-- Lines 79-89 of `Format`: the `file` and `line` of the suffix. -/
def Format.fileLine (env : Env) (entry : Entry) : Outcome (GoString × Int) :=
  match entry.Caller with
  | none => .ok ([], 0)
  | some caller =>
    (LogFormatter.getCurrentAbPath env).bind fun currExecFullDirPath =>
      let currFileFullPath := filepath.Dir caller.File
      let currFile := filepath.Base caller.File
      (sliceFrom currFileFullPath currExecFullDirPath.length).bind fun currExecDirPath =>
        (sliceFrom (filepath.Join [currExecDirPath, currFile]) 1).bind fun file =>
          .ok (file, caller.Line)

/-- The line `fmt.Sprintf("%s [%s] %-120s [%s:%d]\n", timestamp, level,
entry.Message, file, line)`. -/
def Format.sprintf (timestamp level message file : GoString) (line : Int) : GoString :=
  timestamp ++ str " [" ++ level ++ str "] " ++ fmt.padRight 120 message
    ++ str " [" ++ file ++ str ":" ++ fmt.formatInt line ++ str "]\n"

/-- The method `LogFormatter.Format` (lines 77-94): the bytes and the error
value, which is always nil (`none`). -/
def LogFormatter.Format (env : Env) (pkgDefault : ColorScheme) (entry : Entry) :
    Outcome (GoString × Option GoString) :=
  let timestamp := env.Now
  (Format.fileLine env entry).bind fun fl =>
    (LogFormatter.getLevel env pkgDefault entry).bind fun level =>
      .ok (Format.sprintf timestamp level entry.Message fl.1 fl.2, none)

/-! ## Packages `strconv` and `github.com/mgutz/ansi`

The colour package is a third-party dependency and is not under `src/`; its
functions are given here as the program calls them. Nothing in `dglog.go`
calls `ansi.DisableColors`, so the package variable `plain` keeps its
initial value `false`. -/

/-- Go `strings.Split(s, sep)` for a one-byte separator `sep`. -/
def strings.Split (s : GoString) (sep : Nat) : List GoString :=
  match s with
  | [] => [[]]
  | c :: rest =>
    if c = sep then [] :: strings.Split rest sep
    else
      match strings.Split rest sep with
      | [] => [[c]]
      | first :: more => (c :: first) :: more

/-- The value of a string of decimal digits, `none` when a byte is not a
digit. -/
def parseDigits (acc : Nat) : GoString → Option Nat
  | [] => some acc
  | c :: rest =>
    if 48 ≤ c ∧ c ≤ 57 then parseDigits (acc * 10 + (c - 48)) rest else none

/-- Go `strconv.Atoi` with a 64-bit `int`; `none` when it returns an error:
an optional sign, then at least one byte, all of them decimal digits, and a
value that fits an `int`. -/
def strconv.Atoi (s : GoString) : Option Int :=
  let signed := s.head? = some 45 ∨ s.head? = some 43
  let digits := if signed then s.drop 1 else s
  if digits.length == 0 then none
  else
    match parseDigits 0 digits with
    | none => none
    | some n =>
      if s.head? = some 45 then
        if n ≤ 2 ^ 63 then some (-(n : Int)) else none
      else
        if n < 2 ^ 63 then some (n : Int) else none

/-- The constant `ansi.Reset`, `"\033[0m"`. -/
def ansi.Reset : GoString := 27 :: str "[0m"

/-- The map `ansi.Colors` with the `ok` of a lookup: the nine colour names,
and the numerals `0` to `255` that `init` adds (`Colors[strconv.Itoa(i)] = i`). -/
def ansi.ColorsLookup (key : GoString) : Option Nat :=
  if key = str "black" then some 0
  else if key = str "red" then some 1
  else if key = str "green" then some 2
  else if key = str "yellow" then some 3
  else if key = str "blue" then some 4
  else if key = str "magenta" then some 5
  else if key = str "cyan" then some 6
  else if key = str "white" then some 7
  else if key = str "default" then some 9
  else (List.range 256).find? (fun i => fmt.formatInt (i : Int) = key)

/-- The index expression `Colors[key]`: zero for a key that is not in the
map. -/
def ansi.Colors (key : GoString) : Nat :=
  (ansi.ColorsLookup key).getD 0

/-- The function `colorCode` of the colour package: the escape sequence of
a style `foreground+attributes:background+attributes`. `attrs fgStyle`
stands for what the package writes between `"\033["` and the foreground
colour when the style has foreground attributes (`fgStyle` non-empty); with
no attributes it writes the reset code `0;` there. The attribute `h` selects
the high-intensity colours (base 90 instead of 30, 100 instead of 40). -/
def ansi.colorCode (attrs : GoString → GoString) (style : GoString) : GoString :=
  if style.length == 0 then []
  else if style = str "reset" then ansi.Reset
  else if style = str "off" then []
  else
    let foregroundBackground := strings.Split style 58
    let foreground := strings.Split (foregroundBackground.headD []) 43
    let fgKey := foreground.headD []
    let fg := ansi.Colors fgKey
    let fgStyle := if foreground.length > 1 then foreground.getD 1 [] else []
    let background :=
      if foregroundBackground.length > 1 then
        strings.Split (foregroundBackground.getD 1 []) 43
      else []
    let bg := background.headD []
    let bgStyle := if background.length > 1 then background.getD 1 [] else []
    let buf1 := 27 :: 91 :: (if fgStyle.length > 0 then attrs fgStyle else str "0;")
    let base : Nat :=
      if fgStyle.length > 0 && strings.Contains fgStyle (str "h") then 90 else 30
    -- if 256-color
    let buf2 := buf1 ++
      (match strconv.Atoi fgKey with
       | some n => str "38;5;" ++ fmt.formatInt n ++ str ";"
       | none => fmt.formatInt ((base + fg : Nat) : Int) ++ str ";")
    let buf3 :=
      if bg.length > 0 then
        let base : Nat := if strings.Contains bgStyle (str "h") then 100 else 40
        buf2 ++
          (match strconv.Atoi bg with
           | some n => str "48;5;" ++ fmt.formatInt n ++ str ";"
           | none => fmt.formatInt ((base + ansi.Colors bg : Nat) : Int) ++ str ";")
      else buf2
    -- remove last ";"
    buf3.dropLast ++ [109]

/-- The function `ansi.ColorFunc`: the identity for the empty style;
otherwise the transform that returns the empty text as it is and puts any
other text between the style's colour code and `Reset`. -/
def ansi.ColorFunc (attrs : GoString → GoString) (style : GoString) : GoString → GoString :=
  if style.length == 0 then fun s => s
  else
    let color := ansi.colorCode attrs style
    fun s => if s.length == 0 then s else color ++ s ++ ansi.Reset

/-- An attribute writer for the sample environments: the reset code only.
The styles this package uses carry no attribute but `h`. -/
def ansi.sampleAttrs (_fgStyle : GoString) : GoString := str "0;"

/-- A style name that is not a recognized colour or style: non-empty, with
no `:` or `+` part, not `reset` or `off`, not a key of `Colors` and not a
number. -/
def ansi.unrecognized (style : GoString) : Prop :=
  style ≠ [] ∧ 58 ∉ style ∧ 43 ∉ style ∧ style ≠ str "reset" ∧ style ≠ str "off"
    ∧ ansi.ColorsLookup style = none ∧ strconv.Atoi style = none

/-- The scheme whose eight style names are all empty. -/
def emptyColorScheme : ColorScheme where
  InfoLevelStyle := []
  WarnLevelStyle := []
  ErrorLevelStyle := []
  FatalLevelStyle := []
  PanicLevelStyle := []
  DebugLevelStyle := []
  PrefixStyle := []
  TimestampStyle := []

/-- A concrete environment: the binary is `/app/bin/server`, no symbolic
links, temporary directory `/tmp`, and `dglog.go` was compiled at
`/src/dglog/dglog.go`. -/
def sampleEnv : Env where
  Now := str "20240305.14:07:09"
  ColorFunc := ansi.ColorFunc ansi.sampleAttrs
  Executable := some (str "/app/bin/server")
  EvalSymlinks := fun p => some p
  TempDir := str "/tmp"
  CallerFile := some (str "/src/dglog/dglog.go")

/-- As `sampleEnv`, with the binary at `/home/tmp/app/server`: a directory
that is not under `/tmp` but has the text `/tmp` in its path. -/
def tmpNamedEnv : Env where
  Now := str "20240305.14:07:09"
  ColorFunc := ansi.ColorFunc ansi.sampleAttrs
  Executable := some (str "/home/tmp/app/server")
  EvalSymlinks := fun p => some p
  TempDir := str "/tmp"
  CallerFile := some (str "/src/dglog/dglog.go")

/-- As `sampleEnv`, but `filepath.EvalSymlinks` fails on the temporary
directory (it does not exist). -/
def noTmpEnv : Env where
  Now := str "20240305.14:07:09"
  ColorFunc := ansi.ColorFunc ansi.sampleAttrs
  Executable := some (str "/app/bin/server")
  EvalSymlinks := fun p => if p = str "/tmp" then none else some p
  TempDir := str "/tmp"
  CallerFile := some (str "/src/dglog/dglog.go")

/-! ## Colour schemes -/

theorem getCompiledColor_eq (cf : GoString → GoString → GoString) (main fallback : GoString) :
    getCompiledColor cf main fallback = cf (if main = [] then fallback else main) := by
  cases main <;> simp [getCompiledColor]

/-- C7: for every scheme `s`, each of the 8 slots of `compileColorScheme(s)`
is the transform of `s`'s own style name when that is non-empty and of the
built-in default's name for the slot when it is empty; compiling the
all-empty scheme gives the transforms of the default scheme itself. -/
theorem C7_compileColorScheme_slots (cf : GoString → GoString → GoString) (s : ColorScheme) :
    (compileColorScheme cf defaultColorScheme s).InfoLevelColor
        = cf (if s.InfoLevelStyle = [] then str "green" else s.InfoLevelStyle)
    ∧ (compileColorScheme cf defaultColorScheme s).WarnLevelColor
        = cf (if s.WarnLevelStyle = [] then str "yellow" else s.WarnLevelStyle)
    ∧ (compileColorScheme cf defaultColorScheme s).ErrorLevelColor
        = cf (if s.ErrorLevelStyle = [] then str "red" else s.ErrorLevelStyle)
    ∧ (compileColorScheme cf defaultColorScheme s).FatalLevelColor
        = cf (if s.FatalLevelStyle = [] then str "red" else s.FatalLevelStyle)
    ∧ (compileColorScheme cf defaultColorScheme s).PanicLevelColor
        = cf (if s.PanicLevelStyle = [] then str "red" else s.PanicLevelStyle)
    ∧ (compileColorScheme cf defaultColorScheme s).DebugLevelColor
        = cf (if s.DebugLevelStyle = [] then str "blue" else s.DebugLevelStyle)
    ∧ (compileColorScheme cf defaultColorScheme s).PrefixColor
        = cf (if s.PrefixStyle = [] then str "cyan" else s.PrefixStyle)
    ∧ (compileColorScheme cf defaultColorScheme s).TimestampColor
        = cf (if s.TimestampStyle = [] then str "black+h" else s.TimestampStyle)
    ∧ compileColorScheme cf defaultColorScheme emptyColorScheme
        = compileColorScheme cf defaultColorScheme defaultColorScheme := by
  refine ⟨?_, ?_, ?_, ?_, ?_, ?_, ?_, ?_, ?_⟩
  all_goals
    simp only [compileColorScheme, getCompiledColor_eq, defaultColorScheme, emptyColorScheme]
  all_goals rfl

theorem split_absent (sep : Nat) (s : GoString) (h : sep ∉ s) :
    strings.Split s sep = [s] := by
  induction s with
  | nil => rfl
  | cons c rest ih =>
    have hc : ¬ c = sep := fun e => h (by simp [e])
    have hr : sep ∉ rest := fun e => h (List.mem_cons_of_mem _ e)
    simp [strings.Split, hc, ih hr]

theorem colorCode_unrecognized (attrs : GoString → GoString) (style : GoString)
    (h : ansi.unrecognized style) :
    ansi.colorCode attrs style = 27 :: str "[0;30m" := by
  obtain ⟨h0, h1, h2, h3, h4, h5, h6⟩ := h
  have hl : ¬ style.length = 0 := fun e => h0 (List.length_eq_zero.mp e)
  simp [ansi.colorCode, hl, h3, h4, split_absent _ _ h1, split_absent _ _ h2, h6,
    ansi.Colors, h5]
  decide

theorem colorFunc_unrecognized (attrs : GoString → GoString) (style text : GoString)
    (h : ansi.unrecognized style) :
    ansi.ColorFunc attrs style text
      = if text = [] then [] else 27 :: str "[0;30m" ++ text ++ ansi.Reset := by
  have hl : ¬ style.length = 0 := fun e => h.1 (List.length_eq_zero.mp e)
  simp only [ansi.ColorFunc, colorCode_unrecognized attrs style h]
  cases text <;> simp [hl]

/-- C8 fails as stated: the style name `mauve` is not a recognized colour,
and the transform `getCompiledColor` returns for it does not leave the text
`I` unchanged: it wraps it as `ESC[0;30m I ESC[0m`, the colour black. -/
theorem C8_unrecognized_style_is_coloured :
    ansi.unrecognized (str "mauve")
    ∧ getCompiledColor (ansi.ColorFunc ansi.sampleAttrs) (str "mauve") (str "green") (str "I")
        = 27 :: str "[0;30mI" ++ 27 :: str "[0m"
    ∧ getCompiledColor (ansi.ColorFunc ansi.sampleAttrs) (str "mauve") (str "green") (str "I")
        ≠ str "I" := by
  refine ⟨?_, by decide, by decide⟩
  unfold ansi.unrecognized
  decide

/-- C8, amended: for every style name that is not a recognized colour or
style, the transform returned by `getCompiledColor`, and so the slot of
`compileColorScheme` that holds the name, whichever of the 8 it is, is a
total function (it never fails) that returns the empty text unchanged and
wraps every other text in the escape sequence of colour 0, black:
`ESC[0;30m text ESC[0m`. -/
theorem C8_unrecognized_style_is_black (attrs : GoString → GoString)
    (main fallback text : GoString) (s pkgDefault : ColorScheme)
    (h : ansi.unrecognized main) :
    getCompiledColor (ansi.ColorFunc attrs) main fallback text
        = (if text = [] then [] else 27 :: str "[0;30m" ++ text ++ 27 :: str "[0m")
    ∧ (compileColorScheme (ansi.ColorFunc attrs) pkgDefault
        { s with InfoLevelStyle := main }).InfoLevelColor text
        = (if text = [] then [] else 27 :: str "[0;30m" ++ text ++ 27 :: str "[0m")
    ∧ (compileColorScheme (ansi.ColorFunc attrs) pkgDefault
        { s with WarnLevelStyle := main }).WarnLevelColor text
        = (if text = [] then [] else 27 :: str "[0;30m" ++ text ++ 27 :: str "[0m")
    ∧ (compileColorScheme (ansi.ColorFunc attrs) pkgDefault
        { s with ErrorLevelStyle := main }).ErrorLevelColor text
        = (if text = [] then [] else 27 :: str "[0;30m" ++ text ++ 27 :: str "[0m")
    ∧ (compileColorScheme (ansi.ColorFunc attrs) pkgDefault
        { s with FatalLevelStyle := main }).FatalLevelColor text
        = (if text = [] then [] else 27 :: str "[0;30m" ++ text ++ 27 :: str "[0m")
    ∧ (compileColorScheme (ansi.ColorFunc attrs) pkgDefault
        { s with PanicLevelStyle := main }).PanicLevelColor text
        = (if text = [] then [] else 27 :: str "[0;30m" ++ text ++ 27 :: str "[0m")
    ∧ (compileColorScheme (ansi.ColorFunc attrs) pkgDefault
        { s with DebugLevelStyle := main }).DebugLevelColor text
        = (if text = [] then [] else 27 :: str "[0;30m" ++ text ++ 27 :: str "[0m")
    ∧ (compileColorScheme (ansi.ColorFunc attrs) pkgDefault
        { s with PrefixStyle := main }).PrefixColor text
        = (if text = [] then [] else 27 :: str "[0;30m" ++ text ++ 27 :: str "[0m")
    ∧ (compileColorScheme (ansi.ColorFunc attrs) pkgDefault
        { s with TimestampStyle := main }).TimestampColor text
        = (if text = [] then [] else 27 :: str "[0;30m" ++ text ++ 27 :: str "[0m") := by
  have hne : main ≠ [] := h.1
  have key := colorFunc_unrecognized attrs main text h
  have hr : ansi.Reset = 27 :: str "[0m" := rfl
  rw [hr] at key
  refine ⟨?_, ?_, ?_, ?_, ?_, ?_, ?_, ?_, ?_⟩ <;>
    simp only [compileColorScheme, getCompiledColor_eq, if_neg hne] <;> exact key

theorem C8_unrecognized_style_is_black_witness :
    ansi.unrecognized (str "mauve")
    ∧ getCompiledColor (ansi.ColorFunc ansi.sampleAttrs) (str "mauve") (str "green") (str "I")
        = (if str "I" = [] then [] else 27 :: str "[0;30m" ++ str "I" ++ 27 :: str "[0m") :=
  ⟨by unfold ansi.unrecognized; decide,
   (C8_unrecognized_style_is_black ansi.sampleAttrs (str "mauve") (str "green") (str "I")
      emptyColorScheme defaultColorScheme (by unfold ansi.unrecognized; decide)).1⟩

/-! ## The level tag -/

theorem levelString_initial (level : Level) :
    Level.String level = (Level.String level).headD 0 :: (Level.String level).tail
    ∧ 97 ≤ (Level.String level).headD 0 ∧ (Level.String level).headD 0 ≤ 122
    ∧ getLevel.tag level = .ok [(Level.String level).headD 0 - 32] := by
  unfold getLevel.tag Level.String
  split <;> exact ⟨by decide, by decide, by decide, by decide⟩

theorem getLevel_tag_ok (level : Level) :
    ∃ tag, getLevel.tag level = .ok tag ∧ tag.length = 1 ∧ 10 ∉ tag := by
  obtain ⟨_, h2, h3, h4⟩ := levelString_initial level
  refine ⟨_, h4, rfl, ?_⟩
  simp only [List.mem_singleton]
  omega

/-- C5: for every level value the text that `getLevel` hands to the colour
transform is one character, the upper-case form of the first letter of the
level's name: D, I, W, E, F, P for debug, info, warn, error, fatal, panic
(and T for trace, U for every other value). -/
theorem C5_level_tag_is_upper_initial (env : Env) (pkgDefault : ColorScheme) (entry : Entry) :
    (∃ c rest, Level.String entry.Level = c :: rest
      ∧ 97 ≤ c ∧ c ≤ 122
      ∧ getLevel.tag entry.Level = .ok [c - 32]
      ∧ utf8.RuneCountInString [c - 32] = 1
      ∧ LogFormatter.getLevel env pkgDefault entry
          = .ok (getLevel.levelColor
              (compileColorScheme env.ColorFunc pkgDefault getLevel.defaultColorScheme)
              entry.Level [c - 32]))
    ∧ getLevel.tag DebugLevel = .ok (str "D")
    ∧ getLevel.tag InfoLevel = .ok (str "I")
    ∧ getLevel.tag WarnLevel = .ok (str "W")
    ∧ getLevel.tag ErrorLevel = .ok (str "E")
    ∧ getLevel.tag FatalLevel = .ok (str "F")
    ∧ getLevel.tag PanicLevel = .ok (str "P") := by
  refine ⟨?_, by decide, by decide, by decide, by decide, by decide, by decide⟩
  obtain ⟨h1, h2, h3, h4⟩ := levelString_initial entry.Level
  generalize (Level.String entry.Level).headD 0 = c at h1 h2 h3 h4
  generalize (Level.String entry.Level).tail = rest at h1
  refine ⟨c, rest, h1, h2, h3, h4, ?_, ?_⟩
  · have hlt : c - 32 < 128 := by omega
    simp [utf8.RuneCountInString, runeCountLoop, runeSize, hlt]
  · simp [LogFormatter.getLevel, h4, Outcome.bind]

theorem getLevel_levelColor_local (cf : GoString → GoString → GoString)
    (pkgDefault : ColorScheme) (level : Level) :
    getLevel.levelColor (compileColorScheme cf pkgDefault getLevel.defaultColorScheme) level
      = cf (if level = InfoLevel then str "white"
            else if level = WarnLevel then str "yellow"
            else if level = ErrorLevel ∨ level = FatalLevel ∨ level = PanicLevel then str "red"
            else str "blue") := by
  unfold getLevel.levelColor
  split
  case h_7 h5 h4 h3 h2 h1 h0 =>
    have e : (if level = InfoLevel then str "white"
            else if level = WarnLevel then str "yellow"
            else if level = ErrorLevel ∨ level = FatalLevel ∨ level = PanicLevel then str "red"
            else str "blue") = str "blue" := by
      rw [if_neg h4, if_neg h3, if_neg (by rintro (h | h | h) <;> contradiction)]
    rw [e]
    rfl
  all_goals rfl

/-- C6: for every event, and whatever the package-level default scheme
holds, `getLevel` colours the level tag with the transform of the style its
local scheme gives the event's level: debug blue, info white, warn yellow,
error, fatal and panic red; every level outside these six gets the debug
transform (blue). -/
theorem C6_getLevel_uses_local_scheme (env : Env) (pkgDefault : ColorScheme)
    (msg : GoString) (caller : Option Frame) :
    LogFormatter.getLevel env pkgDefault ⟨DebugLevel, msg, caller⟩
        = .ok (env.ColorFunc (str "blue") (str "D"))
    ∧ LogFormatter.getLevel env pkgDefault ⟨InfoLevel, msg, caller⟩
        = .ok (env.ColorFunc (str "white") (str "I"))
    ∧ LogFormatter.getLevel env pkgDefault ⟨WarnLevel, msg, caller⟩
        = .ok (env.ColorFunc (str "yellow") (str "W"))
    ∧ LogFormatter.getLevel env pkgDefault ⟨ErrorLevel, msg, caller⟩
        = .ok (env.ColorFunc (str "red") (str "E"))
    ∧ LogFormatter.getLevel env pkgDefault ⟨FatalLevel, msg, caller⟩
        = .ok (env.ColorFunc (str "red") (str "F"))
    ∧ LogFormatter.getLevel env pkgDefault ⟨PanicLevel, msg, caller⟩
        = .ok (env.ColorFunc (str "red") (str "P"))
    ∧ ∀ k : Nat, LogFormatter.getLevel env pkgDefault ⟨k + 6, msg, caller⟩
        = (getLevel.tag (k + 6)).bind fun tag => .ok (env.ColorFunc (str "blue") tag) := by
  refine ⟨?_, ?_, ?_, ?_, ?_, ?_, ?_⟩
  all_goals try intro k
  all_goals
    simp only [LogFormatter.getLevel, getLevel_levelColor_local]
  all_goals rfl

/-! ## Counting runes in a padded string -/

theorem getD_append_pad (rest : GoString) (k i : Nat) :
    (i < rest.length → (rest ++ List.replicate k 32).getD i 0 = rest.getD i 0)
    ∧ (rest.length ≤ i → (rest ++ List.replicate k 32).getD i 0 < 128) := by
  constructor
  · intro h
    simp [List.getD_eq_getElem?_getD, List.getElem?_append_left h]
  · intro h
    rw [List.getD_eq_getElem?_getD, List.getElem?_append_right h]
    by_cases hk : i - rest.length < k
    · simp [List.getElem?_replicate, hk]
    · simp [List.getElem?_replicate, hk]

/-- The size the `first` table announces for a leading byte `c`. -/
theorem runeSize_cases (c : Nat) (rest : GoString) :
    (c < 0x80 ∨ c < 0xC2 ∨ 0xF4 < c) ∧ runeSize c rest = 1
    ∨ (0xC2 ≤ c ∧ c < 0xE0) ∧ runeSize c rest
        = (if rest.length + 1 < 2 then 1
           else if rest.getD 0 0 < 0x80 ∨ 0xBF < rest.getD 0 0 then 1 else 2)
    ∨ (0xE0 ≤ c ∧ c < 0xF0) ∧ runeSize c rest
        = (if rest.length + 1 < 3 then 1
           else if rest.getD 0 0 < (if c = 0xE0 then 0xA0 else 0x80)
                ∨ (if c = 0xED then 0x9F else 0xBF) < rest.getD 0 0 then 1
           else if rest.getD 1 0 < 0x80 ∨ 0xBF < rest.getD 1 0 then 1 else 3)
    ∨ (0xF0 ≤ c ∧ c ≤ 0xF4) ∧ runeSize c rest
        = (if rest.length + 1 < 4 then 1
           else if rest.getD 0 0 < (if c = 0xF0 then 0x90 else 0x80)
                ∨ (if c = 0xF4 then 0x8F else 0xBF) < rest.getD 0 0 then 1
           else if rest.getD 1 0 < 0x80 ∨ 0xBF < rest.getD 1 0 then 1
           else if rest.getD 2 0 < 0x80 ∨ 0xBF < rest.getD 2 0 then 1 else 4) := by
  unfold runeSize
  by_cases h1 : c < 0x80
  · left; exact ⟨Or.inl h1, by simp [h1]⟩
  by_cases h2 : c < 0xC2 ∨ 0xF4 < c
  · left; exact ⟨Or.inr h2, by simp [h1, h2]⟩
  by_cases h3 : c < 0xE0
  · right; left
    refine ⟨⟨by omega, h3⟩, ?_⟩
    have e1 : ¬ c = 0xE0 := by omega
    have e2 : ¬ c = 0xF0 := by omega
    have e3 : ¬ c = 0xED := by omega
    have e4 : ¬ c = 0xF4 := by omega
    simp only [h1, h2, h3, e1, e2, e3, e4, if_true, if_false]
  by_cases h4 : c < 0xF0
  · right; right; left
    refine ⟨⟨by omega, h4⟩, ?_⟩
    have e2 : ¬ c = 0xF0 := by omega
    have e4 : ¬ c = 0xF4 := by omega
    have e5 : ¬ (3 = 2) := by omega
    simp only [h1, h2, h3, h4, e2, e4, e5, if_true, if_false]
  · right; right; right
    refine ⟨⟨by omega, by omega⟩, ?_⟩
    have e1 : ¬ c = 0xE0 := by omega
    have e3 : ¬ c = 0xED := by omega
    have e5 : ¬ (4 = 2) := by omega
    have e6 : ¬ (4 = 3) := by omega
    simp only [h1, h2, h3, h4, e1, e3, e5, e6, if_true, if_false]

set_option maxHeartbeats 3200000 in
theorem runeSize_append_pad (c : Nat) (rest : GoString) (k : Nat) :
    runeSize c (rest ++ List.replicate k 32) = runeSize c rest := by
  obtain ⟨a0, b0⟩ := getD_append_pad rest k 0
  obtain ⟨a1, b1⟩ := getD_append_pad rest k 1
  obtain ⟨a2, b2⟩ := getD_append_pad rest k 2
  have hl : (rest ++ List.replicate k 32).length = rest.length + k := by simp
  rcases runeSize_cases c rest with ⟨hc, h⟩ | ⟨hc, h⟩ | ⟨hc, h⟩ | ⟨hc, h⟩ <;>
    rcases runeSize_cases c (rest ++ List.replicate k 32)
      with ⟨hc', h'⟩ | ⟨hc', h'⟩ | ⟨hc', h'⟩ | ⟨hc', h'⟩ <;>
    first
      | (exfalso; omega)
      | (rw [h, h']; done)
      | (rw [h, h', hl]
         generalize (rest ++ List.replicate k 32).getD 0 0 = x0 at *
         generalize (rest ++ List.replicate k 32).getD 1 0 = x1 at *
         generalize (rest ++ List.replicate k 32).getD 2 0 = x2 at *
         generalize rest.getD 0 0 = y0 at *
         generalize rest.getD 1 0 = y1 at *
         generalize rest.getD 2 0 = y2 at *
         generalize rest.length = n at *
         split_ifs <;> omega)

theorem runeSize_bounds (c : Nat) (rest : GoString) :
    1 ≤ runeSize c rest ∧ runeSize c rest - 1 ≤ rest.length := by
  rcases runeSize_cases c rest with ⟨_, h⟩ | ⟨_, h⟩ | ⟨_, h⟩ | ⟨_, h⟩ <;>
    (rw [h]; first | omega | (split_ifs <;> omega))

theorem runeCountLoop_pad (k : Nat) : ∀ fuel, k ≤ fuel →
    runeCountLoop fuel (List.replicate k 32) = k := by
  induction k with
  | zero => intro fuel _; cases fuel <;> rfl
  | succ k ih =>
    intro fuel h
    obtain ⟨f, rfl⟩ : ∃ f, fuel = f + 1 := ⟨fuel - 1, by omega⟩
    have hs : runeSize 32 (List.replicate k 32) = 1 := by simp [runeSize]
    rw [List.replicate_succ, runeCountLoop, hs]
    simp only [Nat.sub_self, List.drop_zero]
    rw [ih f (by omega)]
    omega

theorem runeCountLoop_append_pad (k : Nat) : ∀ (fuel1 : Nat) (s : GoString) (fuel : Nat),
    s.length ≤ fuel1 → s.length + k ≤ fuel →
    runeCountLoop fuel (s ++ List.replicate k 32) = runeCountLoop fuel1 s + k := by
  intro fuel1
  induction fuel1 with
  | zero =>
    intro s fuel h1 h2
    have : s = [] := List.length_eq_zero.mp (by omega)
    subst this
    simp only [List.nil_append, runeCountLoop, Nat.zero_add]
    exact runeCountLoop_pad k fuel (by simpa using h2)
  | succ f1 ih =>
    intro s fuel h1 h2
    cases s with
    | nil =>
      simp only [List.nil_append, runeCountLoop, Nat.zero_add]
      exact runeCountLoop_pad k fuel (by simpa using h2)
    | cons c rest =>
      obtain ⟨f, rfl⟩ : ∃ f, fuel = f + 1 := ⟨fuel - 1, by simp at h2; omega⟩
      obtain ⟨hb1, hb2⟩ := runeSize_bounds c rest
      simp only [List.length_cons] at h1 h2
      rw [List.cons_append, runeCountLoop, runeCountLoop, runeSize_append_pad,
        List.drop_append_of_le_length hb2]
      rw [ih (rest.drop (runeSize c rest - 1)) f (by simp; omega) (by simp; omega)]
      omega

/-- Appending `k` spaces adds `k` to the rune count. -/
theorem runeCount_append_pad (s : GoString) (k : Nat) :
    utf8.RuneCountInString (s ++ List.replicate k 32) = utf8.RuneCountInString s + k := by
  unfold utf8.RuneCountInString
  exact runeCountLoop_append_pad k s.length s _ (le_refl _) (by simp)

/-- The loop of `RuneCountInString` gives the same count with any fuel of at
least the length of the string. -/
theorem runeCountLoop_fuel (s : GoString) (fuel : Nat) (h : s.length ≤ fuel) :
    runeCountLoop fuel s = utf8.RuneCountInString s := by
  have := runeCountLoop_append_pad 0 s.length s fuel (le_refl _) (by simpa using h)
  simpa [utf8.RuneCountInString] using this

/-! ## The rendered line -/

theorem decimalDigits_range (fuel n : Nat) :
    ∀ x ∈ decimalDigits fuel n, 48 ≤ x ∧ x ≤ 57 := by
  induction fuel generalizing n with
  | zero => intro x hx; simp [decimalDigits] at hx
  | succ f ih =>
    intro x hx
    unfold decimalDigits at hx
    split_ifs at hx with h
    · simp only [List.mem_singleton] at hx
      omega
    · rcases List.mem_append.mp hx with h1 | h1
      · exact ih _ x h1
      · simp only [List.mem_singleton] at h1
        omega

theorem formatInt_no_newline (v : Int) : 10 ∉ fmt.formatInt v := by
  intro h
  unfold fmt.formatInt at h
  split_ifs at h
  · rcases List.mem_cons.mp h with h1 | h1
    · omega
    · have := decimalDigits_range _ _ 10 h1
      omega
  · have := decimalDigits_range _ _ 10 h
    omega

theorem format_of_fileLine (env : Env) (pkgDefault : ColorScheme) (entry : Entry)
    (file : GoString) (line : Int) (h : Format.fileLine env entry = .ok (file, line)) :
    ∃ level, LogFormatter.getLevel env pkgDefault entry = .ok level
      ∧ LogFormatter.Format env pkgDefault entry
          = .ok (Format.sprintf env.Now level entry.Message file line, none) := by
  obtain ⟨tag, htag, _, _⟩ := getLevel_tag_ok entry.Level
  refine ⟨getLevel.levelColor
    (compileColorScheme env.ColorFunc pkgDefault getLevel.defaultColorScheme)
    entry.Level tag, ?_, ?_⟩
  · simp only [LogFormatter.getLevel, htag, Outcome.bind]
  · simp only [LogFormatter.Format, LogFormatter.getLevel, h, htag, Outcome.bind]

/-- C3: the message field of the rendered line is the message followed by
`max(0, 120 - n)` spaces, `n` being the number of characters of the message:
shorter than 120 characters, it is padded on the right to exactly 120
characters; from 120 characters on it stands in full, with no padding and
no truncation. The field comes before the ` [file:line]` suffix. -/
theorem C3_message_field_width (env : Env) (pkgDefault : ColorScheme) (entry : Entry)
    (file : GoString) (line : Int) (h : Format.fileLine env entry = .ok (file, line)) :
    ∃ level, LogFormatter.getLevel env pkgDefault entry = .ok level
      ∧ LogFormatter.Format env pkgDefault entry
          = .ok (env.Now ++ str " [" ++ level ++ str "] "
              ++ (entry.Message
                  ++ List.replicate (120 - utf8.RuneCountInString entry.Message) 32)
              ++ str " [" ++ file ++ str ":" ++ fmt.formatInt line ++ str "]\n", none)
      ∧ (utf8.RuneCountInString entry.Message < 120 →
          utf8.RuneCountInString (entry.Message
            ++ List.replicate (120 - utf8.RuneCountInString entry.Message) 32) = 120)
      ∧ (120 ≤ utf8.RuneCountInString entry.Message →
          entry.Message ++ List.replicate (120 - utf8.RuneCountInString entry.Message) 32
            = entry.Message) := by
  obtain ⟨level, h1, h2⟩ := format_of_fileLine env pkgDefault entry file line h
  refine ⟨level, h1, ?_, ?_, ?_⟩
  · rw [h2]; rfl
  · intro hlt
    rw [runeCount_append_pad]
    omega
  · intro hge
    rw [Nat.sub_eq_zero_of_le hge]
    simp

theorem C3_message_field_width_witness :
    Format.fileLine sampleEnv
        ⟨InfoLevel, str "server started", some ⟨str "/app/bin/server/main.go", 42⟩⟩
      = .ok (str "server/main.go", 42)
    ∧ ∃ level, LogFormatter.getLevel sampleEnv defaultColorScheme
          ⟨InfoLevel, str "server started", some ⟨str "/app/bin/server/main.go", 42⟩⟩
          = .ok level
      ∧ LogFormatter.Format sampleEnv defaultColorScheme
          ⟨InfoLevel, str "server started", some ⟨str "/app/bin/server/main.go", 42⟩⟩
          = .ok (sampleEnv.Now ++ str " [" ++ level ++ str "] "
              ++ (str "server started"
                  ++ List.replicate (120 - utf8.RuneCountInString (str "server started")) 32)
              ++ str " [" ++ str "server/main.go" ++ str ":" ++ fmt.formatInt 42
              ++ str "]\n", none)
      ∧ (utf8.RuneCountInString (str "server started") < 120 →
          utf8.RuneCountInString (str "server started"
            ++ List.replicate (120 - utf8.RuneCountInString (str "server started")) 32) = 120)
      ∧ (120 ≤ utf8.RuneCountInString (str "server started") →
          str "server started"
            ++ List.replicate (120 - utf8.RuneCountInString (str "server started")) 32
            = str "server started") :=
  ⟨by decide,
   C3_message_field_width sampleEnv defaultColorScheme
    ⟨InfoLevel, str "server started", some ⟨str "/app/bin/server/main.go", 42⟩⟩
    (str "server/main.go") 42 (by decide)⟩

/-- C4: an event without a caller record is rendered with the empty file
name and line 0, so the line ends with the suffix `[:0]` and a newline; the
executable-path resolver is not consulted: whatever `os.Executable`,
`EvalSymlinks`, `os.TempDir` and `runtime.Caller` would give, the call
returns the same line. -/
theorem C4_no_caller_suffix (env : Env) (pkgDefault : ColorScheme) (level : Level)
    (msg : GoString) :
    Format.fileLine env ⟨level, msg, none⟩ = .ok ([], 0)
    ∧ (∃ tag, LogFormatter.getLevel env pkgDefault ⟨level, msg, none⟩ = .ok tag
        ∧ LogFormatter.Format env pkgDefault ⟨level, msg, none⟩
          = .ok (env.Now ++ str " [" ++ tag ++ str "] " ++ fmt.padRight 120 msg
              ++ str " [:0]\n", none))
    ∧ ∀ (exe : Option GoString) (evalSymlinks : GoString → Option GoString)
        (tmp : GoString) (callerFile : Option GoString),
        LogFormatter.Format ⟨env.Now, env.ColorFunc, exe, evalSymlinks, tmp, callerFile⟩
            pkgDefault ⟨level, msg, none⟩
          = LogFormatter.Format env pkgDefault ⟨level, msg, none⟩ := by
  refine ⟨rfl, ?_, ?_⟩
  · obtain ⟨tag, h1, h2⟩ := format_of_fileLine env pkgDefault ⟨level, msg, none⟩ [] 0 rfl
    refine ⟨tag, h1, ?_⟩
    rw [h2]
    have e : str " [" ++ ([] : GoString) ++ str ":" ++ fmt.formatInt 0 ++ str "]\n"
        = str " [:0]\n" := by decide
    simp only [Format.sprintf, List.append_assoc] at e ⊢
    rw [e]
  · intro exe evalSymlinks tmp callerFile
    rfl

/-- C10 fails as stated: a message with a newline in it is copied into the
output unescaped, so the output has a newline before its last byte. -/
theorem C10_newline_in_message_is_copied :
    ∃ out, LogFormatter.Format sampleEnv defaultColorScheme
        ⟨InfoLevel, str "a\nb", none⟩ = .ok (out, none)
      ∧ 10 ∈ out.dropLast :=
  ⟨_, rfl, by decide⟩

/-- C10, amended: whenever the caller's file name is computed, the output of
`Format` ends with a newline character, and what stands before it contains a
newline exactly when the timestamp, the coloured level tag, the message or
the rendered file name contains one. -/
theorem C10_single_line_iff (env : Env) (pkgDefault : ColorScheme) (entry : Entry)
    (file : GoString) (line : Int) (h : Format.fileLine env entry = .ok (file, line)) :
    ∃ level body, LogFormatter.getLevel env pkgDefault entry = .ok level
      ∧ LogFormatter.Format env pkgDefault entry = .ok (body ++ [10], none)
      ∧ (10 ∈ body ↔ 10 ∈ env.Now ∨ 10 ∈ level ∨ 10 ∈ entry.Message ∨ 10 ∈ file) := by
  obtain ⟨level, h1, h2⟩ := format_of_fileLine env pkgDefault entry file line h
  have e1 : str " [" = [32, 91] := by decide
  have e2 : str "] " = [93, 32] := by decide
  have e3 : str ":" = [58] := by decide
  have e4 : str "]\n" = [93] ++ [10] := by decide
  have hn := formatInt_no_newline line
  refine ⟨level, env.Now ++ [32, 91] ++ level ++ [93, 32] ++ fmt.padRight 120 entry.Message
    ++ [32, 91] ++ file ++ [58] ++ fmt.formatInt line ++ [93], h1, ?_, ?_⟩
  · rw [h2]
    simp only [Format.sprintf, e1, e2, e3, e4, List.append_assoc]
  · simp only [fmt.padRight, List.mem_append, List.mem_cons, List.mem_singleton,
      List.mem_replicate, List.not_mem_nil, hn, or_false, false_or]
    have n1 : ¬ (10 : Nat) = 32 := by omega
    have n2 : ¬ (10 : Nat) = 91 := by omega
    have n3 : ¬ (10 : Nat) = 93 := by omega
    have n4 : ¬ (10 : Nat) = 58 := by omega
    simp only [n1, n2, n3, n4, and_false, or_false, false_or]
    tauto

theorem C10_single_line_iff_witness :
    Format.fileLine sampleEnv
        ⟨InfoLevel, str "server started", some ⟨str "/app/bin/server/main.go", 42⟩⟩
      = .ok (str "server/main.go", 42)
    ∧ ∃ level body, LogFormatter.getLevel sampleEnv defaultColorScheme
          ⟨InfoLevel, str "server started", some ⟨str "/app/bin/server/main.go", 42⟩⟩
          = .ok level
      ∧ LogFormatter.Format sampleEnv defaultColorScheme
          ⟨InfoLevel, str "server started", some ⟨str "/app/bin/server/main.go", 42⟩⟩
          = .ok (body ++ [10], none)
      ∧ (10 ∈ body ↔ 10 ∈ sampleEnv.Now ∨ 10 ∈ level ∨ 10 ∈ str "server started"
          ∨ 10 ∈ str "server/main.go") :=
  ⟨by decide,
   C10_single_line_iff sampleEnv defaultColorScheme
    ⟨InfoLevel, str "server started", some ⟨str "/app/bin/server/main.go", 42⟩⟩
    (str "server/main.go") 42 (by decide)⟩

/-! ## The caller's file name and the executable directory -/

/-- C1, evaluated. With the executable directory `/app/bin`, the caller
`/app/bin/server/main.go` (a file in a sub-directory) is rendered as
`server/main.go`, but the caller `/app/bin/main.go` (a file directly in the
executable directory) is rendered as `ain.go`: there is no separator to
strip and `[1:]` removes the first byte of the base name. -/
theorem C1_file_directly_in_exec_dir :
    LogFormatter.getCurrentAbPath sampleEnv = .ok (str "/app/bin")
    ∧ Format.fileLine sampleEnv
        ⟨InfoLevel, str "server started", some ⟨str "/app/bin/server/main.go", 42⟩⟩
      = .ok (str "server/main.go", 42)
    ∧ filepath.Dir (str "/app/bin/main.go") = str "/app/bin"
    ∧ filepath.Join [[], filepath.Base (str "/app/bin/main.go")] = str "main.go"
    ∧ Format.fileLine sampleEnv
        ⟨InfoLevel, str "server started", some ⟨str "/app/bin/main.go", 42⟩⟩
      = .ok (str "ain.go", 42) := by
  refine ⟨by decide, by decide, by decide, by decide, by decide⟩

/-- C2, evaluated. With the executable directory `/app/bin` (8 bytes) and the
caller `/go/x.go`, whose directory `/go` has 3 bytes, the slice
`currFileFullPath[len(currExecFullDirPath):]` is out of range and `Format`
panics instead of returning. -/
theorem C2_format_panics_on_short_caller_dir :
    LogFormatter.getCurrentAbPath sampleEnv = .ok (str "/app/bin")
    ∧ filepath.Dir (str "/go/x.go") = str "/go"
    ∧ sliceFrom (str "/go") (str "/app/bin").length = .panicked
    ∧ LogFormatter.Format sampleEnv defaultColorScheme
        ⟨InfoLevel, str "server started", some ⟨str "/go/x.go", 42⟩⟩ = .panicked := by
  refine ⟨by decide, by decide, by decide, by decide⟩

/-- C9, evaluated. The executable directory `/home/tmp/app` is not inside the
temporary directory `/tmp` but has its text in the path: `getCurrentAbPath`
returns the source-location directory `/src/dglog`. And when the temporary
directory cannot be resolved, the empty string is searched for, which every
directory contains: for `/app/bin` the source-location directory is
returned as well. -/
theorem C9_fallback_on_substring :
    LogFormatter.getCurrentAbPathByExecutable tmpNamedEnv = .ok (str "/home/tmp/app")
    ∧ tmpNamedEnv.EvalSymlinks tmpNamedEnv.TempDir = some (str "/tmp")
    ∧ LogFormatter.getCurrentAbPathByCaller tmpNamedEnv = str "/src/dglog"
    ∧ LogFormatter.getCurrentAbPath tmpNamedEnv = .ok (str "/src/dglog")
    ∧ LogFormatter.getCurrentAbPathByExecutable noTmpEnv = .ok (str "/app/bin")
    ∧ noTmpEnv.EvalSymlinks noTmpEnv.TempDir = none
    ∧ LogFormatter.getCurrentAbPath noTmpEnv = .ok (str "/src/dglog") := by
  refine ⟨by decide, by decide, by decide, by decide, by decide, by decide, by decide⟩

/-! ## The loop of `Clean` ends within `len(path)` turns -/

theorem takeWhile_element_pos (p : GoString) (r : Nat) (hr : r < p.length)
    (hsep : isPathSeparator (p.getD r 0) = false) :
    1 ≤ ((p.drop r).takeWhile (fun c => !isPathSeparator c)).length := by
  have hd : p.getD r 0 = p[r] := by
    simp [List.getD_eq_getElem?_getD, List.getElem?_eq_getElem hr]
  rw [List.drop_eq_getElem_cons hr, List.takeWhile_cons]
  rw [hd] at hsep
  simp [hsep]

/-- Once the fuel covers the unread part of the path, more fuel does not
change the result of the loop of `Clean`: the loop has ended by itself. -/
theorem cleanLoop_fuel (p : GoString) (rooted : Bool) :
    ∀ (fuel r : Nat) (out : GoString) (dotdot : Nat), p.length ≤ r + fuel →
      ∀ extra, cleanLoop p rooted (fuel + extra) r out dotdot
        = cleanLoop p rooted fuel r out dotdot := by
  intro fuel
  induction fuel with
  | zero =>
    intro r out dotdot h extra
    cases extra with
    | zero => rfl
    | succ e =>
      have hr : ¬ r < p.length := by omega
      simp only [Nat.zero_add, cleanLoop, hr, if_false]
  | succ f ih =>
    intro r out dotdot h extra
    have e : f + 1 + extra = (f + extra) + 1 := by omega
    rw [e]
    simp only [cleanLoop]
    by_cases h1 : r < p.length
    · by_cases h2 : isPathSeparator (p.getD r 0) = true
      · simp only [h1, h2, if_true]
        exact ih _ _ _ (by omega) extra
      · have hpos := takeWhile_element_pos p r h1 (by simpa using h2)
        simp only [h1, h2, if_true, if_false]
        split_ifs <;> exact ih _ _ _ (by omega) extra
    · simp only [h1, if_false]

/-! ## Which of the two slices of `Format` can fail -/

theorem clean_ne_nil (p : GoString) : filepath.Clean p ≠ [] := by
  unfold filepath.Clean
  simp only []
  split_ifs with h1 h2 h3 h4
  · simp
  · simp
  · intro h; rw [h] at h3; simp at h3
  · simp
  · intro h; rw [h] at h4; simp at h4

theorem base_ne_nil (p : GoString) : filepath.Base p ≠ [] := by
  unfold filepath.Base
  simp only []
  split_ifs with h1 h2 h3 h4
  · simp
  · simp
  · intro h; rw [h] at h3; simp at h3
  · simp
  · intro h; rw [h] at h4; simp at h4

theorem join_base_ne_nil (d p : GoString) :
    filepath.Join [d, filepath.Base p] ≠ [] := by
  have hb := base_ne_nil p
  have hl : (filepath.Base p).length ≠ 0 := fun h => hb (List.length_eq_zero.mp h)
  simp only [filepath.Join]
  split_ifs
  · exact clean_ne_nil _
  · exact clean_ne_nil _
  · simp_all

/-- The strip `[1:]` never fails: `Format` computes the file name whenever
the resolved executable directory is no longer than the caller's directory. -/
theorem fileLine_returns (env : Env) (level : Level) (msg : GoString) (caller : Frame)
    (dir : GoString) (h : LogFormatter.getCurrentAbPath env = .ok dir)
    (hlen : dir.length ≤ (filepath.Dir caller.File).length) :
    Format.fileLine env ⟨level, msg, some caller⟩
      = .ok ((filepath.Join [(filepath.Dir caller.File).drop dir.length,
          filepath.Base caller.File]).drop 1, caller.Line) := by
  have hj := join_base_ne_nil ((filepath.Dir caller.File).drop dir.length) caller.File
  have hpos : 1 ≤ (filepath.Join
      [(filepath.Dir caller.File).drop dir.length, filepath.Base caller.File]).length := by
    rcases hx : filepath.Join
      [(filepath.Dir caller.File).drop dir.length, filepath.Base caller.File] with _ | ⟨a, t⟩
    · exact absurd hx hj
    · simp
  simp only [Format.fileLine, h, Outcome.bind, sliceFrom, hlen, hpos, if_true]

end Dglog
